import Mathlib

/-
Verification of the Call Orchestration & Scheduling subsystem of the
SD voice AI service (src/services/call_orchestrator.py).

The orchestrator keeps live coordination state in Redis:
  * a sorted set "calls:queue" used as a priority queue (score = priority,
    higher pops first, ties broken by the lexicographically larger member),
  * a set "calls:active" of currently dispatched call ids,
  * one hash "calls:state:<id>" per call holding the ephemeral CallState.
Durable history lives in a database (Supabase) keyed by call id.

We model call ids and specialist ids as naturals (the database allocates
fresh ids; the `nextId` counter mirrors UUID freshness), priorities as
rationals, the Redis hash as a record of optional fields (the empty record
is the absent hash), and the active set as a `Finset`.  External outcomes
(durable-write success, specialist lookup, telephony gateway result) are
explicit parameters of the operations that consult them.
-/

namespace SDVoice

abbrev CallId := Nat
abbrev SpecId := Nat

/-- The `CallStatus` enum from src/schemas/call.py. -/
inductive CallStatus
  | queued
  | dispatched
  | ringing
  | connected
  | in_progress
  | completed
  | failed
  | voicemail
deriving DecidableEq, Repr

/-- One Redis hash "calls:state:<id>": every field optional, all-none means
the hash does not exist (`hgetall` returns the empty dict). -/
structure CallHash where
  call_id : Option CallId := none
  specialist_id : Option SpecId := none
  status : Option CallStatus := none
  scheduled_at : Option Nat := none
  retry_count : Option Nat := none
  metadata : Option String := none
  last_failure : Option String := none
  failure_reason : Option String := none
  livekit_room : Option String := none
deriving DecidableEq, Repr

def CallHash.empty : CallHash := {}

/-- Truthiness of the dict returned by `hgetall`: empty iff no field is set. -/
def CallHash.isEmpty (h : CallHash) : Bool :=
  h.call_id.isNone && h.specialist_id.isNone && h.status.isNone &&
  h.scheduled_at.isNone && h.retry_count.isNone && h.metadata.isNone &&
  h.last_failure.isNone && h.failure_reason.isNone && h.livekit_room.isNone

/-- A specialist row; `dispatch_call` reads `specialist.get("phone", "")`. -/
structure Specialist where
  phone : String := ""
deriving DecidableEq, Repr

/-- A durable verification_calls row (src/db.py, create_call_record /
update_call_status). -/
structure DbRecord where
  specialist_id : SpecId
  direction : String := "outbound"
  status : String
  ended_at : Option String := none
  transcript : Option String := none
  failure_reason : Option String := none
  retry_count : Option Nat := none
  livekit_room_id : Option String := none
deriving DecidableEq, Repr

/-- The durable store: specialists table, verification_calls table, and a
fresh-id counter standing in for the database's UUID generation. -/
structure Db where
  specialists : SpecId → Option Specialist
  calls : CallId → Option DbRecord
  nextId : CallId

/-- `DatabaseClient.get_specialist`: lookup, errors are swallowed to `none`. -/
def Db.get_specialist (db : Db) (sid : SpecId) : Option Specialist :=
  db.specialists sid

/-- `DatabaseClient.create_call_record`: insert a fresh queued row, or `none`
when the write fails (the client catches the exception and returns None). -/
def Db.create_call_record (db : Db) (sid : SpecId) (ok : Bool) :
    Option (CallId × Db) :=
  if ok then
    some (db.nextId,
      { db with
        calls := fun c =>
          if c = db.nextId then some { specialist_id := sid, status := "queued" }
          else db.calls c,
        nextId := db.nextId + 1 })
  else none

/-- `DatabaseClient.update_call_status`: update the row if present (a missing
row yields no data and the caller's state is unchanged). -/
def Db.update_call_status (db : Db) (c : CallId) (f : DbRecord → DbRecord) : Db :=
  { db with calls := fun x => if x = c then (db.calls x).map f else db.calls x }

/-- Fields written by `update_call_status(id, "completed", ...)` in
`call_completed`. -/
def completeRec (t : String) (r : DbRecord) : DbRecord :=
  { r with status := "completed", ended_at := some "now()", transcript := some t }

/-- Fields written by `update_call_status(id, "failed", ...)` in
`_handle_failure`'s terminal branch. -/
def failRec (reason : String) (rc : Nat) (r : DbRecord) : DbRecord :=
  { r with status := "failed", failure_reason := some reason,
           retry_count := some rc }

/-- Fields written by `update_call_status(id, "dispatched", ...)` in
`dispatch_call`'s success branch. -/
def dispatchRec (room : String) (r : DbRecord) : DbRecord :=
  { r with status := "dispatched", livekit_room_id := some room }

/-- The operational limits read from `Settings` (src/config.py, defaults
`max_concurrent_calls = 10`, `max_retry_attempts = 3`). -/
structure Settings where
  max_concurrent_calls : Nat := 10
  max_retry_attempts : Nat := 3

/-- The coordination state of the orchestrator: the Redis sorted set
"calls:queue", the per-call hashes, the active set, and the durable store. -/
structure Orch where
  queue : List (CallId × ℚ) := []
  states : CallId → CallHash
  active : Finset CallId := ∅
  db : Db

/-- `zadd`: insert or update the member's score in the sorted set. -/
def zadd (q : List (CallId × ℚ)) (c : CallId) (p : ℚ) : List (CallId × ℚ) :=
  (q.filter fun e => e.1 ≠ c) ++ [(c, p)]

/-- Remove a member from the sorted set. -/
def zremove (q : List (CallId × ℚ)) (c : CallId) : List (CallId × ℚ) :=
  q.filter fun e => e.1 ≠ c

/-- The score of a member, if present. -/
def zscore : List (CallId × ℚ) → CallId → Option ℚ
  | [], _ => none
  | e :: t, c => if e.1 = c then some e.2 else zscore t c

/-- Redis `ZPOPMAX` order: higher score first, ties broken by the
lexicographically larger member (modelled as the larger id). -/
def zbetter (a b : CallId × ℚ) : Bool :=
  if b.2 < a.2 then true
  else if a.2 = b.2 then decide (b.1 < a.1)
  else false

/-- The entry `ZPOPMAX` would return, if the set is nonempty. -/
def zmax : List (CallId × ℚ) → Option (CallId × ℚ)
  | [] => none
  | e :: rest =>
    match zmax rest with
    | none => some e
    | some m => if zbetter e m then some e else some m

/-- Whether a call id currently has a queue entry. -/
def inQueue (s : Orch) (c : CallId) : Bool :=
  (zscore s.queue c).isSome

/-- Merge fields into the hash of one call id (`HSET` with a mapping). -/
def hmergeState (s : Orch) (c : CallId) (f : CallHash → CallHash) : Orch :=
  { s with states := fun x => if x = c then f (s.states x) else s.states x }

/-- `CallOrchestrator._update_state`: set the status, and the failure reason
only when one is given (Python's `if failure_reason:` truthiness). -/
def update_state (s : Orch) (c : CallId) (st : CallStatus)
    (failure_reason : String) : Orch :=
  hmergeState s c fun h =>
    if failure_reason = "" then { h with status := some st }
    else { h with status := some st, failure_reason := some failure_reason }

/-- `CallOrchestrator.schedule_call`: create the durable record (raising if
that fails, before any Redis write), mirror the CallState hash, then `zadd`
the id at the given priority.  `createOk` is the durable write's outcome;
the raised exception is returned as `Except.error` alongside the state as it
stood when the exception escaped. -/
def schedule_call (s : Orch) (sid : SpecId) (priority : ℚ) (meta : String)
    (createOk : Bool) : Except String CallId × Orch :=
  match s.db.create_call_record sid createOk with
  | none =>
    (Except.error ("Failed to create call record for specialist " ++ toString sid), s)
  | some (cid, db') =>
    let s1 : Orch := { s with db := db' }
    let s2 := hmergeState s1 cid fun h =>
      { h with call_id := some cid, specialist_id := some sid,
               status := some CallStatus.queued, scheduled_at := some 0,
               retry_count := some 0, metadata := some meta }
    (Except.ok cid, { s2 with queue := zadd s2.queue cid priority })

/-- `CallOrchestrator.get_next_call`: if the active set has reached
`max_concurrent_calls`, return None without touching the queue; otherwise
pop the highest-priority entry and load its hash, returning None when the
hash is empty. -/
def get_next_call (g : Settings) (s : Orch) : Option CallHash × Orch :=
  if g.max_concurrent_calls ≤ s.active.card then (none, s)
  else
    match zmax s.queue with
    | none => (none, s)
    | some e =>
      let s' := { s with queue := zremove s.queue e.1 }
      let h := s'.states e.1
      (if h.isEmpty then none else some h, s')

/-- `CallOrchestrator._handle_failure`: if `retry_count` (defaulting to 0 for
a missing hash) is below `max_retry_attempts`, increment it, set the status
back to QUEUED, record `last_failure`, and re-queue at score
`-retry_count`; otherwise mark FAILED in the hash and the durable record and
create no queue entry. -/
def handle_failure (g : Settings) (s : Orch) (c : CallId) (reason : String) : Orch :=
  let rc := ((s.states c).retry_count).getD 0
  if rc < g.max_retry_attempts then
    let rc' := rc + 1
    let s1 := hmergeState s c fun h =>
      { h with retry_count := some rc', status := some CallStatus.queued,
               last_failure := some reason }
    { s1 with queue := zadd s1.queue c (-(rc' : ℚ)) }
  else
    let s1 := update_state s c CallStatus.failed reason
    { s1 with db := s1.db.update_call_status c (failRec reason rc) }

/-- `CallOrchestrator.call_completed`: set status COMPLETED, remove the id
from the active set, persist ended_at and the transcript durably. -/
def call_completed (s : Orch) (c : CallId) (t : String) : Orch :=
  let s1 := update_state s c CallStatus.completed ""
  let s2 := { s1 with active := s1.active.erase c }
  { s2 with db := s2.db.update_call_status c (completeRec t) }

/-- `CallOrchestrator.call_failed`: remove the id from the active set, then
run the retry/backoff procedure. -/
def call_failed (g : Settings) (s : Orch) (c : CallId) (reason : String) : Orch :=
  handle_failure g { s with active := s.active.erase c } c reason

/-- Outcome of the LiveKit room-creation + SIP-participant pair, treated as
one logical gateway attempt. -/
inductive GatewayOutcome
  | ok
  | err (msg : String)
deriving DecidableEq, Repr

/-- `CallOrchestrator.dispatch_call`.  Returns `none` for the one uncaught
exception path (a nonempty hash lacking `specialist_id` raises KeyError
outside the try block); otherwise `some (returnValue, state)`.  Missing hash,
missing specialist and missing phone fail fast before the gateway is
consulted; a gateway error routes through `handle_failure`; success marks
DISPATCHED, adds to the active set and persists the room name. -/
def dispatch_call (g : Settings) (s : Orch) (c : CallId) (gw : GatewayOutcome) :
    Option (Bool × Orch) :=
  if (s.states c).isEmpty then some (false, s)
  else
    match (s.states c).specialist_id with
    | none => none
    | some sid =>
      match s.db.get_specialist sid with
      | none => some (false, update_state s c CallStatus.failed "Specialist not found")
      | some sp =>
        if sp.phone = "" then
          some (false, update_state s c CallStatus.failed "No phone number")
        else
          let room := "verify-" ++ toString c
          match gw with
          | GatewayOutcome.ok =>
            let s1 := update_state s c CallStatus.dispatched ""
            let s2 := { s1 with active := insert c s1.active }
            let s3 := hmergeState s2 c fun hh => { hh with livekit_room := some room }
            some (true, { s3 with db := s3.db.update_call_status c (dispatchRec room) })
          | GatewayOutcome.err e =>
            some (false, handle_failure g s c e)

/-- Ephemeral retry counter as `_handle_failure` reads it. -/
def retryCountOf (s : Orch) (c : CallId) : Nat :=
  ((s.states c).retry_count).getD 0

/-- Ephemeral status field of a call's hash. -/
def statusOf (s : Orch) (c : CallId) : Option CallStatus :=
  (s.states c).status

/-- Ephemeral last_failure field of a call's hash. -/
def lastFailureOf (s : Orch) (c : CallId) : Option String :=
  (s.states c).last_failure

/-- Ephemeral failure_reason field of a call's hash. -/
def failureReasonOf (s : Orch) (c : CallId) : Option String :=
  (s.states c).failure_reason

/-! ### Sorted-set lemmas -/

theorem zscore_filter_ne_self (q : List (CallId × ℚ)) (c : CallId) :
    zscore (q.filter fun e => e.1 ≠ c) c = none := by
  induction q with
  | nil => rfl
  | cons e t ih =>
    by_cases he : e.1 = c
    · simpa [List.filter_cons, he] using ih
    · simpa [List.filter_cons, he, zscore] using ih

theorem zscore_filter_ne_other (q : List (CallId × ℚ)) (c c' : CallId)
    (h : c' ≠ c) :
    zscore (q.filter fun e => e.1 ≠ c) c' = zscore q c' := by
  induction q with
  | nil => rfl
  | cons e t ih =>
    by_cases he : e.1 = c
    · have hne : ¬(c = c') := fun hh => h hh.symm
      simpa [List.filter_cons, he, zscore, hne] using ih
    · by_cases he' : e.1 = c'
      · simp [List.filter_cons, he, zscore, he', h]
      · simpa [List.filter_cons, he, zscore, he'] using ih

theorem zscore_append (q₁ q₂ : List (CallId × ℚ)) (c : CallId) :
    zscore (q₁ ++ q₂) c =
      match zscore q₁ c with
      | some p => some p
      | none => zscore q₂ c := by
  induction q₁ with
  | nil => simp [zscore]
  | cons e t ih =>
    by_cases he : e.1 = c
    · simp [zscore, he]
    · simpa [zscore, he] using ih

theorem zscore_zadd_self (q : List (CallId × ℚ)) (c : CallId) (p : ℚ) :
    zscore (zadd q c p) c = some p := by
  unfold zadd
  rw [zscore_append, zscore_filter_ne_self]
  simp [zscore]

theorem zscore_zadd_other (q : List (CallId × ℚ)) (c c' : CallId) (p : ℚ)
    (h : c' ≠ c) : zscore (zadd q c p) c' = zscore q c' := by
  unfold zadd
  rw [zscore_append, zscore_filter_ne_other q c c' h]
  cases hq : zscore q c' with
  | none => simp [zscore, Ne.symm h]
  | some e => simp

theorem zscore_zremove_self (q : List (CallId × ℚ)) (c : CallId) :
    zscore (zremove q c) c = none :=
  zscore_filter_ne_self q c

theorem zscore_zremove_other (q : List (CallId × ℚ)) (c c' : CallId)
    (h : c' ≠ c) : zscore (zremove q c) c' = zscore q c' :=
  zscore_filter_ne_other q c c' h

theorem zbetter_false_of_lt {a b : CallId × ℚ} (h : a.2 < b.2) :
    zbetter a b = false := by
  unfold zbetter
  rw [if_neg (not_lt.2 h.le), if_neg (ne_of_lt h)]

theorem zmax_pair (c₁ c₂ : CallId) (p₁ p₂ : ℚ) (hne : c₁ ≠ c₂) (hp : p₁ < p₂) :
    zadd (zadd [] c₁ p₁) c₂ p₂ = [(c₁, p₁), (c₂, p₂)] ∧
    zmax [(c₁, p₁), (c₂, p₂)] = some (c₂, p₂) ∧
    zremove [(c₁, p₁), (c₂, p₂)] c₂ = [(c₁, p₁)] := by
  refine ⟨?_, ?_, ?_⟩
  · simp [zadd, List.filter_cons, hne]
  · have hb : zbetter (c₁, p₁) (c₂, p₂) = false := zbetter_false_of_lt hp
    simp [zmax, hb]
  · simp [zremove, List.filter_cons, hne]

theorem zmax_singleton (c : CallId) (p : ℚ) : zmax [(c, p)] = some (c, p) := by
  simp [zmax]

/-! ### Concrete states used as witnesses and counterexamples -/

/-- A durable store holding one specialist (id 1) with a phone number. -/
def db0 : Db :=
  { specialists := fun sid => if sid = 1 then some { phone := "+15550100" } else none,
    calls := fun _ => none,
    nextId := 0 }

/-- Fresh coordination state over `db0`. -/
def init0 : Orch :=
  { queue := [], states := fun _ => CallHash.empty, active := ∅, db := db0 }

/-- The default operational limits (src/config.py). -/
def settings0 : Settings := {}

/-- Limits with `max_concurrent_calls = 1`. -/
def gate1 : Settings := { max_concurrent_calls := 1, max_retry_attempts := 3 }

/-- A state with one queued entry and one active call. -/
def busy1 : Orch :=
  { queue := [(7, 5)], states := fun _ => CallHash.empty, active := {0}, db := db0 }

/-- A state whose only queue entry points at an absent hash. -/
def stale0 : Orch :=
  { queue := [(5, 2)], states := fun _ => CallHash.empty, active := ∅, db := db0 }

/-! ### Claims -/

/-- Claim C1: `get_next_call` never returns a call while the active set's
cardinality is at least `max_concurrent_calls`; in that case it returns
None and leaves the priority queue (indeed the whole state) unchanged. -/
theorem get_next_call_respects_gate (g : Settings) (s : Orch)
    (h : g.max_concurrent_calls ≤ s.active.card) :
    get_next_call g s = (none, s) := by
  unfold get_next_call
  rw [if_pos h]

/-- Witness for C1: with the limit 1 and one active call, `get_next_call`
returns None and does not touch the nonempty queue. -/
theorem get_next_call_respects_gate_w :
    gate1.max_concurrent_calls ≤ busy1.active.card ∧
    get_next_call gate1 busy1 = (none, busy1) :=
  ⟨by decide, get_next_call_respects_gate gate1 busy1 (by decide)⟩

/-- Claim C6: when the durable record creation fails, `schedule_call`
raises (returns the error rather than a call id) and the coordination state
is exactly as before: no CallState hash and no queue entry were created. -/
theorem schedule_call_create_failure (s : Orch) (sid : SpecId) (p : ℚ)
    (m : String) :
    schedule_call s sid p m false =
      (Except.error ("Failed to create call record for specialist " ++ toString sid), s) :=
  rfl

/-- Claim C10: when the popped id's hash is empty, `get_next_call` returns
None while the queue entry has already been consumed; the id is neither
re-queued nor added to the active set. -/
theorem get_next_call_drops_stateless_entry (g : Settings) (s : Orch)
    (cid : CallId) (p : ℚ)
    (hcap : s.active.card < g.max_concurrent_calls)
    (hmax : zmax s.queue = some (cid, p))
    (hempty : (s.states cid).isEmpty = true) :
    get_next_call g s = (none, { s with queue := zremove s.queue cid }) ∧
    zscore (zremove s.queue cid) cid = none ∧
    ({ s with queue := zremove s.queue cid } : Orch).active = s.active := by
  refine ⟨?_, zscore_zremove_self s.queue cid, rfl⟩
  unfold get_next_call
  rw [if_neg (not_le.2 hcap), hmax]
  simp [hempty]

/-- Witness for C10: a queue entry pointing at an absent hash is consumed
and dropped. -/
theorem get_next_call_drops_stateless_entry_w :
    stale0.active.card < settings0.max_concurrent_calls ∧
    zmax stale0.queue = some (5, 2) ∧
    (stale0.states 5).isEmpty = true ∧
    (get_next_call settings0 stale0 =
        (none, { stale0 with queue := zremove stale0.queue 5 }) ∧
      zscore (zremove stale0.queue 5) 5 = none ∧
      ({ stale0 with queue := zremove stale0.queue 5 } : Orch).active = stale0.active) :=
  ⟨by decide, rfl, rfl,
    get_next_call_drops_stateless_entry settings0 stale0 5 2 (by decide) rfl rfl⟩

/-- Claim C2: with `max_retry_attempts = 3`, a failure handling at
`retry_count` below 3 increments the counter, resets the status to QUEUED,
records `last_failure`, and re-queues the id at score `-retry_count`, which
is below the default fresh priority 0, touching neither the durable store
nor the active set; a failure handling at `retry_count = 3` (the fourth
failure) marks the call FAILED with `retry_count = 3` and the failure
reason recorded both ephemerally and durably, and creates no queue entry. -/
theorem handle_failure_retry_then_terminal (g : Settings) (s : Orch)
    (c : CallId) (r : String) (rc : Nat)
    (hg : g.max_retry_attempts = 3)
    (hrc : retryCountOf s c = rc)
    (hr : r ≠ "") :
    (rc < 3 →
      retryCountOf (handle_failure g s c r) c = rc + 1 ∧
      statusOf (handle_failure g s c r) c = some CallStatus.queued ∧
      lastFailureOf (handle_failure g s c r) c = some r ∧
      zscore (handle_failure g s c r).queue c = some (-(((rc + 1 : Nat)) : ℚ)) ∧
      (-(((rc + 1 : Nat)) : ℚ)) < 0 ∧
      (handle_failure g s c r).db = s.db ∧
      (handle_failure g s c r).active = s.active) ∧
    (rc = 3 →
      statusOf (handle_failure g s c r) c = some CallStatus.failed ∧
      retryCountOf (handle_failure g s c r) c = 3 ∧
      failureReasonOf (handle_failure g s c r) c = some r ∧
      (handle_failure g s c r).queue = s.queue ∧
      (handle_failure g s c r).active = s.active ∧
      (handle_failure g s c r).db.calls c = (s.db.calls c).map (failRec r 3)) := by
  have hrc' : ((s.states c).retry_count).getD 0 = rc := hrc
  constructor
  · intro hlt
    refine ⟨?_, ?_, ?_, ?_, ?_, ?_, ?_⟩
    · simp [handle_failure, hrc', hg, hlt, retryCountOf, hmergeState]
    · simp [handle_failure, hrc', hg, hlt, statusOf, hmergeState]
    · simp [handle_failure, hrc', hg, hlt, lastFailureOf, hmergeState]
    · simp only [handle_failure, hrc', hg, if_pos hlt]
      exact zscore_zadd_self _ _ _
    · have : (0 : ℚ) < ((rc + 1 : Nat) : ℚ) := by
        exact_mod_cast Nat.succ_pos rc
      linarith
    · simp [handle_failure, hrc', hg, hlt, hmergeState]
    · simp [handle_failure, hrc', hg, hlt, hmergeState]
  · intro h3
    refine ⟨?_, ?_, ?_, ?_, ?_, ?_⟩
    · simp [handle_failure, hrc', h3, hg, statusOf, update_state, hmergeState, hr]
    · simp [handle_failure, hrc', h3, hg, retryCountOf, update_state, hmergeState, hr]
    · simp [handle_failure, hrc', h3, hg, failureReasonOf, update_state, hmergeState, hr]
    · simp [handle_failure, hrc', h3, hg, update_state, hmergeState, hr]
    · simp [handle_failure, hrc', h3, hg, update_state, hmergeState, hr]
    · simp [handle_failure, hrc', h3, hg, Db.update_call_status, update_state, hmergeState, hr]

/-- Witness for C2: a first failure on a freshly scheduled call (retry
count 0) requeues at score -1. -/
theorem handle_failure_retry_then_terminal_w :
    settings0.max_retry_attempts = 3 ∧
    retryCountOf stale0 5 = 0 ∧
    ("gw error" : String) ≠ "" ∧
    ((0 < 3 →
      retryCountOf (handle_failure settings0 stale0 5 "gw error") 5 = 0 + 1 ∧
      statusOf (handle_failure settings0 stale0 5 "gw error") 5 = some CallStatus.queued ∧
      lastFailureOf (handle_failure settings0 stale0 5 "gw error") 5 = some "gw error" ∧
      zscore (handle_failure settings0 stale0 5 "gw error").queue 5 = some (-(((0 + 1 : Nat)) : ℚ)) ∧
      (-(((0 + 1 : Nat)) : ℚ)) < 0 ∧
      (handle_failure settings0 stale0 5 "gw error").db = stale0.db ∧
      (handle_failure settings0 stale0 5 "gw error").active = stale0.active) ∧
    (0 = 3 →
      statusOf (handle_failure settings0 stale0 5 "gw error") 5 = some CallStatus.failed ∧
      retryCountOf (handle_failure settings0 stale0 5 "gw error") 5 = 3 ∧
      failureReasonOf (handle_failure settings0 stale0 5 "gw error") 5 = some "gw error" ∧
      (handle_failure settings0 stale0 5 "gw error").queue = stale0.queue ∧
      (handle_failure settings0 stale0 5 "gw error").active = stale0.active ∧
      (handle_failure settings0 stale0 5 "gw error").db.calls 5 =
        (stale0.db.calls 5).map (failRec "gw error" 3))) :=
  ⟨rfl, rfl, by decide,
    handle_failure_retry_then_terminal settings0 stale0 5 "gw error" 0 rfl rfl (by decide)⟩

/-- Structure extensionality for the coordination state. -/
theorem orchFieldsEq {a b : Orch} (hq : a.queue = b.queue) (hs : a.states = b.states)
    (ha : a.active = b.active) (hd : a.db = b.db) : a = b := by
  cases a; cases b
  cases hq; cases hs; cases ha; cases hd
  rfl

/-- Structure extensionality for the durable store. -/
theorem dbFieldsEq {a b : Db} (h1 : a.specialists = b.specialists)
    (h2 : a.calls = b.calls) (h3 : a.nextId = b.nextId) : a = b := by
  cases a; cases b
  cases h1; cases h2; cases h3
  rfl

/-- Claim C5: when the specialist's phone number is missing, `dispatch_call`
fails fast: whatever the gateway would have answered, the result is the same
(no gateway call is made), the status is recorded FAILED immediately with
the reason, and neither a queue entry nor a retry is created — queue,
active set, retry counter, and the durable store are untouched. -/
theorem dispatch_call_missing_phone (g : Settings) (s : Orch) (c : CallId)
    (gw : GatewayOutcome) (sid : SpecId) (sp : Specialist)
    (hsid : (s.states c).specialist_id = some sid)
    (hsp : s.db.get_specialist sid = some sp)
    (hphone : sp.phone = "") :
    dispatch_call g s c gw =
      some (false, update_state s c CallStatus.failed "No phone number") ∧
    statusOf (update_state s c CallStatus.failed "No phone number") c =
      some CallStatus.failed ∧
    failureReasonOf (update_state s c CallStatus.failed "No phone number") c =
      some "No phone number" ∧
    (update_state s c CallStatus.failed "No phone number").queue = s.queue ∧
    (update_state s c CallStatus.failed "No phone number").active = s.active ∧
    retryCountOf (update_state s c CallStatus.failed "No phone number") c =
      retryCountOf s c ∧
    (update_state s c CallStatus.failed "No phone number").db = s.db := by
  have hnonempty : (s.states c).isEmpty = false := by
    simp [CallHash.isEmpty, hsid]
  have hnp : ¬(("No phone number" : String) = "") := by decide
  refine ⟨?_, ?_, ?_, ?_, ?_, ?_, ?_⟩
  · simp [dispatch_call, hnonempty, hsid, hsp, hphone]
  · simp [statusOf, update_state, hmergeState, hnp]
  · simp [failureReasonOf, update_state, hmergeState, hnp]
  · simp [update_state, hmergeState]
  · simp [update_state, hmergeState]
  · simp [retryCountOf, update_state, hmergeState, hnp]
  · simp [update_state, hmergeState]

/-- A state holding one scheduled call (id 0) whose specialist (id 2) exists
but has an empty phone number. -/
def nophone0 : Orch :=
  { queue := [],
    states := fun x =>
      if x = 0 then
        { call_id := some 0, specialist_id := some 2,
          status := some CallStatus.queued, scheduled_at := some 0,
          retry_count := some 0, metadata := some "" }
      else CallHash.empty,
    active := ∅,
    db := { specialists := fun sid => if sid = 2 then some { phone := "" } else none,
            calls := fun _ => none,
            nextId := 1 } }

/-- Witness for C5: dispatching call 0 of `nophone0` fails fast. -/
theorem dispatch_call_missing_phone_w :
    (nophone0.states 0).specialist_id = some 2 ∧
    nophone0.db.get_specialist 2 = some { phone := "" } ∧
    ({ phone := "" } : Specialist).phone = "" ∧
    (dispatch_call settings0 nophone0 0 GatewayOutcome.ok =
        some (false, update_state nophone0 0 CallStatus.failed "No phone number") ∧
      statusOf (update_state nophone0 0 CallStatus.failed "No phone number") 0 =
        some CallStatus.failed ∧
      failureReasonOf (update_state nophone0 0 CallStatus.failed "No phone number") 0 =
        some "No phone number" ∧
      (update_state nophone0 0 CallStatus.failed "No phone number").queue = nophone0.queue ∧
      (update_state nophone0 0 CallStatus.failed "No phone number").active = nophone0.active ∧
      retryCountOf (update_state nophone0 0 CallStatus.failed "No phone number") 0 =
        retryCountOf nophone0 0 ∧
      (update_state nophone0 0 CallStatus.failed "No phone number").db = nophone0.db) :=
  ⟨rfl, rfl, rfl,
    dispatch_call_missing_phone settings0 nophone0 0 GatewayOutcome.ok 2
      { phone := "" } rfl rfl rfl⟩

/-- Claim C7: `call_completed` is idempotent — the second invocation is a
no-op yielding the identical state (hence exactly the one COMPLETED durable
record produced by the first call), and the active set is left without the
call id. -/
theorem call_completed_idempotent (s : Orch) (c : CallId) (t : String) :
    call_completed (call_completed s c t) c t = call_completed s c t ∧
    c ∉ (call_completed s c t).active ∧
    statusOf (call_completed s c t) c = some CallStatus.completed ∧
    (call_completed s c t).db.calls c = (s.db.calls c).map (completeRec t) ∧
    (∀ c', c' ≠ c → (call_completed s c t).db.calls c' = s.db.calls c') := by
  refine ⟨?_, ?_, ?_, ?_, ?_⟩
  · apply orchFieldsEq
    · rfl
    · funext x
      by_cases hx : x = c
      · subst hx
        simp [call_completed, update_state, hmergeState]
      · simp [call_completed, update_state, hmergeState, hx]
    · exact Finset.erase_eq_of_not_mem (Finset.not_mem_erase c _)
    · apply dbFieldsEq
      · rfl
      · funext x
        have hff : ∀ v : Option DbRecord,
            (v.map (completeRec t)).map (completeRec t) = v.map (completeRec t) := by
          intro v
          cases v <;> rfl
        by_cases hx : x = c
        · subst hx
          simp [call_completed, Db.update_call_status, update_state, hmergeState, hff]
        · simp [call_completed, Db.update_call_status, update_state, hmergeState, hx]
      · rfl
  · exact Finset.not_mem_erase c _
  · simp [call_completed, update_state, hmergeState, statusOf]
  · simp [call_completed, Db.update_call_status, update_state, hmergeState]
  · intro c' hc'
    simp [call_completed, Db.update_call_status, update_state, hmergeState, hc']

/-! ### Evaluation lemmas for schedule and dequeue -/

theorem schedule_call_queue (s : Orch) (sid : SpecId) (p : ℚ) (m : String) :
    (schedule_call s sid p m true).2.queue = zadd s.queue s.db.nextId p :=
  rfl

theorem schedule_call_nextId (s : Orch) (sid : SpecId) (p : ℚ) (m : String) :
    (schedule_call s sid p m true).2.db.nextId = s.db.nextId + 1 :=
  rfl

theorem schedule_call_active (s : Orch) (sid : SpecId) (p : ℚ) (m : String)
    (ok : Bool) : (schedule_call s sid p m ok).2.active = s.active := by
  cases ok <;> rfl

theorem schedule_call_states_self (s : Orch) (sid : SpecId) (p : ℚ) (m : String) :
    (schedule_call s sid p m true).2.states s.db.nextId =
      { (s.states s.db.nextId) with
        call_id := some s.db.nextId, specialist_id := some sid,
        status := some CallStatus.queued, scheduled_at := some 0,
        retry_count := some 0, metadata := some m } := by
  simp [schedule_call, hmergeState, Db.create_call_record]

theorem schedule_call_states_other (s : Orch) (sid : SpecId) (p : ℚ) (m : String)
    (ok : Bool) (x : CallId) (hx : x ≠ s.db.nextId) :
    (schedule_call s sid p m ok).2.states x = s.states x := by
  cases ok with
  | false => rfl
  | true => simp [schedule_call, hmergeState, Db.create_call_record, hx]

theorem get_next_call_eval (g : Settings) (s : Orch) (e : CallId × ℚ)
    (hcap : s.active.card < g.max_concurrent_calls)
    (hmax : zmax s.queue = some e)
    (hne : (s.states e.1).isEmpty = false) :
    get_next_call g s =
      (some (s.states e.1), { s with queue := zremove s.queue e.1 }) := by
  unfold get_next_call
  rw [if_neg (not_le.2 hcap), hmax]
  dsimp only
  rw [hne]
  simp

/-- Claim C8: from an empty queue with the concurrency gate open, after
scheduling call A at priority 5.0 and call B at priority 10.0, the first
`get_next_call` returns B's CallState and the next returns A's (A's id is
`s.db.nextId`, B's is `s.db.nextId + 1`). -/
theorem get_next_call_priority_order (g : Settings) (s : Orch)
    (sidA sidB : SpecId) (mA mB : String)
    (hq : s.queue = [])
    (hcap : s.active.card < g.max_concurrent_calls) :
    ((get_next_call g
        (schedule_call (schedule_call s sidA 5 mA true).2 sidB 10 mB true).2).1.bind
      CallHash.call_id = some (s.db.nextId + 1)) ∧
    ((get_next_call g
        (get_next_call g
          (schedule_call (schedule_call s sidA 5 mA true).2 sidB 10 mB true).2).2).1.bind
      CallHash.call_id = some s.db.nextId) := by
  have hne : s.db.nextId ≠ s.db.nextId + 1 := Nat.ne_of_lt (Nat.lt_succ_self _)
  obtain ⟨hzq, hzmax, hzrem⟩ :=
    zmax_pair s.db.nextId (s.db.nextId + 1) 5 10 hne (by norm_num)
  have hq1 : (schedule_call s sidA 5 mA true).2.queue = [(s.db.nextId, 5)] := by
    rw [schedule_call_queue, hq]
    rfl
  have hq2 : (schedule_call (schedule_call s sidA 5 mA true).2 sidB 10 mB true).2.queue
      = [(s.db.nextId, 5), (s.db.nextId + 1, 10)] := by
    have h0 : (schedule_call (schedule_call s sidA 5 mA true).2 sidB 10 mB true).2.queue
        = zadd (schedule_call s sidA 5 mA true).2.queue (s.db.nextId + 1) 10 :=
      rfl
    rw [h0, hq1]
    exact hzq
  have hact2 : (schedule_call (schedule_call s sidA 5 mA true).2 sidB 10 mB true).2.active
      = s.active := by
    rw [schedule_call_active, schedule_call_active]
  have hstB : (schedule_call (schedule_call s sidA 5 mA true).2 sidB 10 mB true).2.states
      (s.db.nextId + 1)
      = { ((schedule_call s sidA 5 mA true).2.states (s.db.nextId + 1)) with
          call_id := some (s.db.nextId + 1), specialist_id := some sidB,
          status := some CallStatus.queued, scheduled_at := some 0,
          retry_count := some 0, metadata := some mB } :=
    schedule_call_states_self (schedule_call s sidA 5 mA true).2 sidB 10 mB
  have hstA : (schedule_call (schedule_call s sidA 5 mA true).2 sidB 10 mB true).2.states
      s.db.nextId
      = { (s.states s.db.nextId) with
          call_id := some s.db.nextId, specialist_id := some sidA,
          status := some CallStatus.queued, scheduled_at := some 0,
          retry_count := some 0, metadata := some mA } := by
    rw [schedule_call_states_other _ sidB 10 mB true s.db.nextId hne]
    exact schedule_call_states_self s sidA 5 mA
  have hmax2 : zmax (schedule_call (schedule_call s sidA 5 mA true).2 sidB 10 mB true).2.queue
      = some (s.db.nextId + 1, 10) := by
    rw [hq2]
    exact hzmax
  have hcap2 : (schedule_call (schedule_call s sidA 5 mA true).2 sidB 10 mB true).2.active.card
      < g.max_concurrent_calls := by
    rw [hact2]
    exact hcap
  have hneB : ((schedule_call (schedule_call s sidA 5 mA true).2 sidB 10 mB true).2.states
      (s.db.nextId + 1)).isEmpty = false := by
    rw [hstB]
    simp [CallHash.isEmpty]
  have hpop1 := get_next_call_eval g
    (schedule_call (schedule_call s sidA 5 mA true).2 sidB 10 mB true).2
    (s.db.nextId + 1, 10) hcap2 hmax2 hneB
  constructor
  · rw [hpop1]
    simp [hstB]
  · rw [hpop1]
    have hq3 : zremove (schedule_call (schedule_call s sidA 5 mA true).2 sidB 10 mB true).2.queue
        (s.db.nextId + 1) = [(s.db.nextId, 5)] := by
      rw [hq2]
      exact hzrem
    have hcap3 : ({ (schedule_call (schedule_call s sidA 5 mA true).2 sidB 10 mB true).2 with
        queue := zremove (schedule_call (schedule_call s sidA 5 mA true).2 sidB 10 mB true).2.queue
          (s.db.nextId + 1) } : Orch).active.card < g.max_concurrent_calls := hcap2
    have hmax3 : zmax ({ (schedule_call (schedule_call s sidA 5 mA true).2 sidB 10 mB true).2 with
        queue := zremove (schedule_call (schedule_call s sidA 5 mA true).2 sidB 10 mB true).2.queue
          (s.db.nextId + 1) } : Orch).queue = some (s.db.nextId, 5) := by
      show zmax (zremove _ _) = _
      rw [hq3]
      exact zmax_singleton _ _
    have hneA : (({ (schedule_call (schedule_call s sidA 5 mA true).2 sidB 10 mB true).2 with
        queue := zremove (schedule_call (schedule_call s sidA 5 mA true).2 sidB 10 mB true).2.queue
          (s.db.nextId + 1) } : Orch).states s.db.nextId).isEmpty = false := by
      show ((schedule_call (schedule_call s sidA 5 mA true).2 sidB 10 mB true).2.states
        s.db.nextId).isEmpty = false
      rw [hstA]
      simp [CallHash.isEmpty]
    have hpop2 := get_next_call_eval g _ (s.db.nextId, 5) hcap3 hmax3 hneA
    rw [hpop2]
    simp [hstA]

/-- Witness for C8: from the empty initial state, ids 0 (priority 5) and 1
(priority 10) are scheduled and popped in the order 1, then 0. -/
theorem get_next_call_priority_order_w :
    init0.queue = [] ∧
    init0.active.card < settings0.max_concurrent_calls ∧
    (((get_next_call settings0
        (schedule_call (schedule_call init0 1 5 "" true).2 1 10 "" true).2).1.bind
      CallHash.call_id = some (init0.db.nextId + 1)) ∧
    ((get_next_call settings0
        (get_next_call settings0
          (schedule_call (schedule_call init0 1 5 "" true).2 1 10 "" true).2).2).1.bind
      CallHash.call_id = some init0.db.nextId)) :=
  ⟨rfl, by decide, get_next_call_priority_order settings0 init0 1 1 "" "" rfl (by decide)⟩

/-! ### Queue/active-set disjointness (C3) -/

/-- No call id is simultaneously in the priority queue and the active set. -/
def QueueActiveDisjoint (s : Orch) : Prop :=
  ∀ c, inQueue s c = true → c ∉ s.active

/-- The state after scheduling call 0 (specialist 1) from the fresh state. -/
def sched0 : Orch := (schedule_call init0 1 10 "" true).2

/-- Extract the post-state of a dispatch outcome. -/
def orchOf : Option (Bool × Orch) → Orch → Orch
  | some (_, s), _ => s
  | none, d => d

/-- The state after additionally dispatching call 0 directly (gateway ok),
without popping it from the queue — exactly what the repository's
`/calls/initiate` endpoint does after `schedule_call`. -/
def c3s2 : Orch := orchOf (dispatch_call settings0 sched0 0 GatewayOutcome.ok) sched0

/-- Counterexample to C3 as stated: after the public-operation sequence
`schedule_call` then `dispatch_call` (successful), call id 0 is a member of
the priority queue and of the active set at the same instant. -/
theorem dispatch_breaks_queue_active_disjoint :
    dispatch_call settings0 sched0 0 GatewayOutcome.ok = some (true, c3s2) ∧
    inQueue c3s2 0 = true ∧ 0 ∈ c3s2.active :=
  ⟨rfl, by decide, by decide⟩

theorem handle_failure_components (g : Settings) (s : Orch) (c : CallId)
    (r : String) :
    ((handle_failure g s c r).active = s.active) ∧
    (retryCountOf s c < g.max_retry_attempts →
      (handle_failure g s c r).queue =
        zadd s.queue c (-((retryCountOf s c + 1 : Nat) : ℚ))) ∧
    (¬(retryCountOf s c < g.max_retry_attempts) →
      (handle_failure g s c r).queue = s.queue) := by
  unfold retryCountOf
  by_cases hlt : ((s.states c).retry_count).getD 0 < g.max_retry_attempts
  · refine ⟨?_, fun _ => ?_, fun hn => absurd hlt hn⟩
    · simp [handle_failure, hlt, hmergeState]
    · simp [handle_failure, hlt, hmergeState]
  · refine ⟨?_, fun hltt => absurd hltt hlt, fun _ => ?_⟩
    · simp [handle_failure, hlt, update_state, hmergeState]
    · simp [handle_failure, hlt, update_state, hmergeState]

theorem handle_failure_disjoint (g : Settings) (s : Orch) (c : CallId)
    (r : String) (hD : QueueActiveDisjoint s) (ha : c ∉ s.active) :
    QueueActiveDisjoint (handle_failure g s c r) := by
  obtain ⟨hact, hq1, hq2⟩ := handle_failure_components g s c r
  intro x hx
  rw [hact]
  by_cases hlt : retryCountOf s c < g.max_retry_attempts
  · unfold inQueue at hx
    rw [hq1 hlt] at hx
    by_cases hxc : x = c
    · subst hxc
      exact ha
    · rw [zscore_zadd_other _ _ _ _ hxc] at hx
      exact hD x hx
  · unfold inQueue at hx
    rw [hq2 hlt] at hx
    exact hD x hx

theorem get_next_call_snd (g : Settings) (s : Orch) :
    ((get_next_call g s).2.active = s.active) ∧
    (∀ x, inQueue (get_next_call g s).2 x = true → inQueue s x = true) := by
  unfold get_next_call
  by_cases hgate : g.max_concurrent_calls ≤ s.active.card
  · rw [if_pos hgate]
    exact ⟨rfl, fun x hx => hx⟩
  · rw [if_neg hgate]
    cases hm : zmax s.queue with
    | none => exact ⟨rfl, fun x hx => hx⟩
    | some e =>
      refine ⟨rfl, fun x hx => ?_⟩
      have hx' : (zscore (zremove s.queue e.1) x).isSome = true := hx
      by_cases hxe : x = e.1
      · subst hxe
        rw [zscore_zremove_self] at hx'
        cases hx'
      · have := zscore_zremove_other s.queue e.1 x hxe
        unfold inQueue
        rw [← this]
        exact hx'

/-- Claim C3 (amended): the queue/active disjointness invariant is preserved
by every public operation, provided `dispatch_call` is only invoked on a
call id that is currently neither queued nor active (the scheduler worker's
pop-then-dispatch discipline) and freshly allocated ids are genuinely fresh
(`s.db.nextId ∉ s.active`, as with database UUIDs).  As stated the claim is
false: `dispatch_call` never removes its argument from the queue, so the
schedule-then-dispatch sequence of the `/calls/initiate` endpoint leaves
the id in both structures (see `dispatch_breaks_queue_active_disjoint`). -/
theorem queue_active_disjoint_preserved (g : Settings) (s : Orch)
    (sid : SpecId) (p : ℚ) (m : String) (ok : Bool) (c : CallId)
    (gw : GatewayOutcome) (t r : String) (b : Bool) (s' : Orch)
    (hD : QueueActiveDisjoint s)
    (hfresh : s.db.nextId ∉ s.active)
    (hq : inQueue s c = false)
    (ha : c ∉ s.active)
    (hdisp : dispatch_call g s c gw = some (b, s')) :
    QueueActiveDisjoint (schedule_call s sid p m ok).2 ∧
    QueueActiveDisjoint (get_next_call g s).2 ∧
    QueueActiveDisjoint s' ∧
    QueueActiveDisjoint (call_completed s c t) ∧
    QueueActiveDisjoint (call_failed g s c r) := by
  refine ⟨?_, ?_, ?_, ?_, ?_⟩
  · cases ok with
    | false => exact hD
    | true =>
      intro x hx
      rw [schedule_call_active]
      by_cases hxn : x = s.db.nextId
      · subst hxn
        exact hfresh
      · unfold inQueue at hx
        rw [schedule_call_queue, zscore_zadd_other _ _ _ _ hxn] at hx
        exact hD x hx
  · obtain ⟨hact, himp⟩ := get_next_call_snd g s
    intro x hx
    rw [hact]
    exact hD x (himp x hx)
  · unfold dispatch_call at hdisp
    by_cases h1 : (s.states c).isEmpty = true
    · rw [if_pos h1] at hdisp
      injection hdisp with hpair
      injection hpair with hb hs
      subst hs
      exact hD
    · rw [if_neg h1] at hdisp
      cases hsid : (s.states c).specialist_id with
      | none =>
        rw [hsid] at hdisp
        dsimp only at hdisp
        exact Option.noConfusion hdisp
      | some sidv =>
        rw [hsid] at hdisp
        dsimp only at hdisp
        cases hsp : s.db.get_specialist sidv with
        | none =>
          rw [hsp] at hdisp
          injection hdisp with hpair
          injection hpair with hb hs
          subst hs
          exact fun x hx => hD x hx
        | some sp =>
          rw [hsp] at hdisp
          dsimp only at hdisp
          by_cases hph : sp.phone = ""
          · rw [if_pos hph] at hdisp
            injection hdisp with hpair
            injection hpair with hb hs
            subst hs
            exact fun x hx => hD x hx
          · rw [if_neg hph] at hdisp
            cases gw with
            | ok =>
              injection hdisp with hpair
              injection hpair with hb hs
              subst hs
              intro x hx
              have hxq : inQueue s x = true := hx
              show x ∉ insert c s.active
              intro hmem
              rcases Finset.mem_insert.1 hmem with rfl | hmem'
              · rw [hq] at hxq
                cases hxq
              · exact hD x hxq hmem'
            | err e =>
              injection hdisp with hpair
              injection hpair with hb hs
              subst hs
              exact handle_failure_disjoint g s c e hD ha
  · intro x hx
    have hxq : inQueue s x = true := hx
    exact fun hmem => hD x hxq (Finset.mem_of_mem_erase hmem)
  · apply handle_failure_disjoint
    · intro x hx
      have hxq : inQueue s x = true := hx
      exact fun hmem => hD x hxq (Finset.mem_of_mem_erase hmem)
    · exact Finset.not_mem_erase c _

/-- Witness for the amended C3: from the fresh state all five preserved
operations keep the disjointness invariant (dispatching the unknown id 0
returns `False` without changing the state). -/
theorem queue_active_disjoint_preserved_w :
    QueueActiveDisjoint init0 ∧
    init0.db.nextId ∉ init0.active ∧
    inQueue init0 0 = false ∧
    0 ∉ init0.active ∧
    dispatch_call settings0 init0 0 GatewayOutcome.ok = some (false, init0) ∧
    (QueueActiveDisjoint (schedule_call init0 1 5 "" true).2 ∧
     QueueActiveDisjoint (get_next_call settings0 init0).2 ∧
     QueueActiveDisjoint init0 ∧
     QueueActiveDisjoint (call_completed init0 0 "") ∧
     QueueActiveDisjoint (call_failed settings0 init0 0 "r")) :=
  ⟨(fun c h => nomatch h), by decide, rfl, by decide, rfl,
    queue_active_disjoint_preserved settings0 init0 1 5 "" true 0 GatewayOutcome.ok
      "" "r" false init0 (fun c h => nomatch h) (by decide) rfl (by decide) rfl⟩

/-! ### Losing failure signal after completion (C4) -/

/-- The scheduled call 0 after its completion signal. -/
def c4done : Orch := call_completed sched0 0 "transcript"

/-- ... and after a late failure signal for the same call id. -/
def c4after : Orch := call_failed settings0 c4done 0 "late failure"

/-- Counterexample to C4 as stated: after `call_completed`, a subsequent
`call_failed` for the same call id is not a no-op — it resets the status
from COMPLETED back to QUEUED, bumps the retry counter, and inserts a new
queue entry at score -1. -/
theorem call_failed_after_completed_cex :
    statusOf c4done 0 = some CallStatus.completed ∧
    statusOf c4after 0 = some CallStatus.queued ∧
    statusOf c4after 0 ≠ some CallStatus.completed ∧
    zscore c4after.queue 0 = some (-1) ∧
    retryCountOf c4after 0 = 1 := by
  decide

/-- Claim C4 (amended): the orchestrator does not implement
first-terminal-transition-wins.  For a call already COMPLETED, a later
`call_failed` with `retry_count` still below `max_retry_attempts` resets the
status to QUEUED, increments `retry_count`, records the failure reason, and
re-inserts a queue entry at score `-retry_count` — the completion is
effectively undone rather than the failure signal being a no-op. -/
theorem call_failed_after_completed (g : Settings) (s : Orch) (c : CallId)
    (r : String) (rc : Nat)
    (hst : statusOf s c = some CallStatus.completed)
    (hrc : retryCountOf s c = rc)
    (hlt : rc < g.max_retry_attempts) :
    statusOf (call_failed g s c r) c = some CallStatus.queued ∧
    retryCountOf (call_failed g s c r) c = rc + 1 ∧
    lastFailureOf (call_failed g s c r) c = some r ∧
    zscore (call_failed g s c r).queue c = some (-((rc + 1 : Nat) : ℚ)) := by
  have hrc' : ((s.states c).retry_count).getD 0 = rc := hrc
  refine ⟨?_, ?_, ?_, ?_⟩
  · simp [call_failed, handle_failure, hrc', hlt, statusOf, hmergeState]
  · simp [call_failed, handle_failure, hrc', hlt, retryCountOf, hmergeState]
  · simp [call_failed, handle_failure, hrc', hlt, lastFailureOf, hmergeState]
  · simp only [call_failed, handle_failure, hrc', if_pos hlt]
    exact zscore_zadd_self _ _ _

/-- Witness for the amended C4: the completed call 0 is requeued by a late
failure signal. -/
theorem call_failed_after_completed_w :
    statusOf c4done 0 = some CallStatus.completed ∧
    retryCountOf c4done 0 = 0 ∧
    0 < settings0.max_retry_attempts ∧
    (statusOf (call_failed settings0 c4done 0 "late failure") 0 =
        some CallStatus.queued ∧
      retryCountOf (call_failed settings0 c4done 0 "late failure") 0 = 0 + 1 ∧
      lastFailureOf (call_failed settings0 c4done 0 "late failure") 0 =
        some "late failure" ∧
      zscore (call_failed settings0 c4done 0 "late failure").queue 0 =
        some (-((0 + 1 : Nat) : ℚ))) :=
  ⟨by decide, by decide, by decide,
    call_failed_after_completed settings0 c4done 0 "late failure" 0
      (by decide) (by decide) (by decide)⟩

/-! ### Retry-count invariant along operation traces (C9) -/

/-- One public orchestrator operation.  The side conditions `c < s.db.nextId`
on dispatch/completion/failure record that externally reported call ids
always refer to calls the database has already allocated (ids are database
UUIDs; the counter models their freshness). -/
inductive Step (g : Settings) : Orch → Orch → Prop
  | schedule (sid : SpecId) (p : ℚ) (m : String) (ok : Bool) (s : Orch) :
      Step g s (schedule_call s sid p m ok).2
  | getNext (s : Orch) : Step g s (get_next_call g s).2
  | dispatch (c : CallId) (gw : GatewayOutcome) (s : Orch) (b : Bool) (s' : Orch)
      (hc : c < s.db.nextId) (h : dispatch_call g s c gw = some (b, s')) :
      Step g s s'
  | completed (c : CallId) (t : String) (s : Orch) (hc : c < s.db.nextId) :
      Step g s (call_completed s c t)
  | failed (c : CallId) (r : String) (s : Orch) (hc : c < s.db.nextId) :
      Step g s (call_failed g s c r)

/-- Any sequence of public operations. -/
abbrev Steps (g : Settings) : Orch → Orch → Prop :=
  Relation.ReflTransGen (Step g)

/-- Ids not yet allocated have no ephemeral hash. -/
def FreshOk (s : Orch) : Prop :=
  ∀ c, s.db.nextId ≤ c → s.states c = CallHash.empty

theorem update_state_states_other (s : Orch) (c : CallId) (st : CallStatus)
    (fr : String) (x : CallId) (hx : x ≠ c) :
    (update_state s c st fr).states x = s.states x := by
  simp [update_state, hmergeState, hx]

theorem update_state_retry (s : Orch) (c : CallId) (st : CallStatus)
    (fr : String) (x : CallId) :
    retryCountOf (update_state s c st fr) x = retryCountOf s x := by
  unfold retryCountOf update_state hmergeState
  by_cases hx : x = c
  · subst hx
    by_cases hfr : fr = "" <;> simp [hfr]
  · simp [hx]

theorem handle_failure_retry_self (g : Settings) (s : Orch) (c : CallId)
    (r : String) :
    retryCountOf (handle_failure g s c r) c =
      if retryCountOf s c < g.max_retry_attempts then retryCountOf s c + 1
      else retryCountOf s c := by
  unfold retryCountOf
  by_cases hlt : ((s.states c).retry_count).getD 0 < g.max_retry_attempts
  · simp [handle_failure, hlt, hmergeState]
  · simp [handle_failure, hlt, update_state, hmergeState]
    split <;> rfl

theorem handle_failure_retry_other (g : Settings) (s : Orch) (c : CallId)
    (r : String) (x : CallId) (hx : x ≠ c) :
    retryCountOf (handle_failure g s c r) x = retryCountOf s x := by
  unfold retryCountOf
  by_cases hlt : ((s.states c).retry_count).getD 0 < g.max_retry_attempts
  · simp [handle_failure, hlt, hmergeState, hx]
  · simp [handle_failure, hlt, update_state, hmergeState, hx]

theorem handle_failure_states_other (g : Settings) (s : Orch) (c : CallId)
    (r : String) (x : CallId) (hx : x ≠ c) :
    (handle_failure g s c r).states x = s.states x := by
  by_cases hlt : ((s.states c).retry_count).getD 0 < g.max_retry_attempts
  · simp [handle_failure, hlt, hmergeState, hx]
  · simp [handle_failure, hlt, update_state, hmergeState, hx]

theorem handle_failure_nextId (g : Settings) (s : Orch) (c : CallId)
    (r : String) :
    (handle_failure g s c r).db.nextId = s.db.nextId := by
  by_cases hlt : ((s.states c).retry_count).getD 0 < g.max_retry_attempts
  · simp [handle_failure, hlt, hmergeState]
  · simp [handle_failure, hlt, update_state, hmergeState, Db.update_call_status]

theorem handle_failure_preserves (g : Settings) (s : Orch) (c : CallId)
    (r : String) (hc : c < s.db.nextId) (hF : FreshOk s) :
    FreshOk (handle_failure g s c r) ∧
    (∀ x, retryCountOf s x ≤ retryCountOf (handle_failure g s c r) x) ∧
    ((∀ x, retryCountOf s x ≤ g.max_retry_attempts) →
      ∀ x, retryCountOf (handle_failure g s c r) x ≤ g.max_retry_attempts) := by
  refine ⟨?_, ?_, ?_⟩
  · intro x hxge
    rw [handle_failure_nextId] at hxge
    have hx : x ≠ c := ne_of_gt (lt_of_lt_of_le hc hxge)
    rw [handle_failure_states_other g s c r x hx]
    exact hF x hxge
  · intro x
    by_cases hx : x = c
    · subst hx
      rw [handle_failure_retry_self]
      split
      · exact Nat.le_succ _
      · exact le_refl _
    · rw [handle_failure_retry_other g s c r x hx]
  · intro hB x
    by_cases hx : x = c
    · subst hx
      rw [handle_failure_retry_self]
      split_ifs with hcond
      · exact Nat.succ_le_of_lt hcond
      · exact hB x
    · rw [handle_failure_retry_other g s c r x hx]
      exact hB x

theorem get_next_call_states (g : Settings) (s : Orch) :
    (get_next_call g s).2.states = s.states ∧ (get_next_call g s).2.db = s.db := by
  unfold get_next_call
  by_cases hgate : g.max_concurrent_calls ≤ s.active.card
  · rw [if_pos hgate]
    exact ⟨rfl, rfl⟩
  · rw [if_neg hgate]
    cases hm : zmax s.queue with
    | none => exact ⟨rfl, rfl⟩
    | some e => exact ⟨rfl, rfl⟩

theorem step_preserves (g : Settings) {s s' : Orch} (hst : Step g s s')
    (hF : FreshOk s) :
    FreshOk s' ∧
    (∀ c, retryCountOf s c ≤ retryCountOf s' c) ∧
    ((∀ c, retryCountOf s c ≤ g.max_retry_attempts) →
      ∀ c, retryCountOf s' c ≤ g.max_retry_attempts) := by
  cases hst with
  | schedule sid p m ok s =>
    cases ok with
    | false => exact ⟨hF, fun c => le_refl _, fun hB => hB⟩
    | true =>
      refine ⟨?_, ?_, ?_⟩
      · intro c hcge
        have h1 : s.db.nextId + 1 ≤ c := hcge
        have hne : c ≠ s.db.nextId :=
          ne_of_gt (lt_of_lt_of_le (Nat.lt_succ_self _) h1)
        rw [schedule_call_states_other s sid p m true c hne]
        exact hF c (le_trans (Nat.le_succ _) h1)
      · intro c
        by_cases hc : c = s.db.nextId
        · subst hc
          have h0 : retryCountOf s s.db.nextId = 0 := by
            unfold retryCountOf
            rw [hF s.db.nextId (le_refl _)]
            rfl
          rw [h0]
          exact Nat.zero_le _
        · unfold retryCountOf
          rw [schedule_call_states_other s sid p m true c hc]
      · intro hB c
        by_cases hc : c = s.db.nextId
        · subst hc
          have h0 : retryCountOf (schedule_call s sid p m true).2 s.db.nextId = 0 := by
            unfold retryCountOf
            rw [schedule_call_states_self]
            rfl
          rw [h0]
          exact Nat.zero_le _
        · unfold retryCountOf
          rw [schedule_call_states_other s sid p m true c hc]
          exact hB c
  | getNext s =>
    obtain ⟨hstates, hdb⟩ := get_next_call_states g s
    refine ⟨?_, ?_, ?_⟩
    · intro c hcge
      rw [hstates]
      apply hF
      rwa [hdb] at hcge
    · intro c
      unfold retryCountOf
      rw [hstates]
    · intro hB c
      unfold retryCountOf
      rw [hstates]
      exact hB c
  | completed c t s hc =>
    refine ⟨?_, ?_, ?_⟩
    · intro x hxge
      have hxge' : s.db.nextId ≤ x := hxge
      have hx : x ≠ c := ne_of_gt (lt_of_lt_of_le hc hxge')
      have h2 : (call_completed s c t).states x = s.states x :=
        update_state_states_other s c CallStatus.completed "" x hx
      rw [h2]
      exact hF x hxge'
    · intro x
      have h2 : retryCountOf (call_completed s c t) x = retryCountOf s x :=
        update_state_retry s c CallStatus.completed "" x
      rw [h2]
    · intro hB x
      have h2 : retryCountOf (call_completed s c t) x = retryCountOf s x :=
        update_state_retry s c CallStatus.completed "" x
      rw [h2]
      exact hB x
  | failed c r s hc =>
    have hpre := handle_failure_preserves g
      { s with active := s.active.erase c } c r hc hF
    obtain ⟨hF', hmono, hBnd⟩ := hpre
    exact ⟨hF', hmono, hBnd⟩
  | dispatch c gw s b s' hc h =>
    unfold dispatch_call at h
    by_cases h1 : (s.states c).isEmpty = true
    · rw [if_pos h1] at h
      injection h with hpair
      injection hpair with hb hs
      subst hs
      exact ⟨hF, fun x => le_refl _, fun hB => hB⟩
    · rw [if_neg h1] at h
      cases hsid : (s.states c).specialist_id with
      | none =>
        rw [hsid] at h
        dsimp only at h
        exact Option.noConfusion h
      | some sidv =>
        rw [hsid] at h
        dsimp only at h
        cases hsp : s.db.get_specialist sidv with
        | none =>
          rw [hsp] at h
          injection h with hpair
          injection hpair with hb hs
          subst hs
          refine ⟨?_, ?_, ?_⟩
          · intro x hxge
            have hxge' : s.db.nextId ≤ x := hxge
            have hx : x ≠ c := ne_of_gt (lt_of_lt_of_le hc hxge')
            rw [update_state_states_other s c CallStatus.failed _ x hx]
            exact hF x hxge'
          · intro x
            rw [update_state_retry]
          · intro hB x
            rw [update_state_retry]
            exact hB x
        | some sp =>
          rw [hsp] at h
          dsimp only at h
          by_cases hph : sp.phone = ""
          · rw [if_pos hph] at h
            injection h with hpair
            injection hpair with hb hs
            subst hs
            refine ⟨?_, ?_, ?_⟩
            · intro x hxge
              have hxge' : s.db.nextId ≤ x := hxge
              have hx : x ≠ c := ne_of_gt (lt_of_lt_of_le hc hxge')
              rw [update_state_states_other s c CallStatus.failed _ x hx]
              exact hF x hxge'
            · intro x
              rw [update_state_retry]
            · intro hB x
              rw [update_state_retry]
              exact hB x
          · rw [if_neg hph] at h
            cases gw with
            | ok =>
              injection h with hpair
              injection hpair with hb hs
              subst hs
              refine ⟨?_, ?_, ?_⟩
              · intro x hxge
                have hxge' : s.db.nextId ≤ x := hxge
                have hx : x ≠ c := ne_of_gt (lt_of_lt_of_le hc hxge')
                show (if x = c then _ else
                  (update_state s c CallStatus.dispatched "").states x) = CallHash.empty
                rw [if_neg hx, update_state_states_other s c CallStatus.dispatched "" x hx]
                exact hF x hxge'
              · intro x
                by_cases hx : x = c
                · subst hx
                  simp [retryCountOf, update_state, hmergeState]
                · simp [retryCountOf, update_state, hmergeState, hx]
              · intro hB x
                by_cases hx : x = c
                · subst hx
                  simp only [retryCountOf]
                  have heq : retryCountOf s x ≤ g.max_retry_attempts := hB x
                  simp [retryCountOf, update_state, hmergeState] at heq ⊢
                  exact heq
                · simp only [retryCountOf]
                  have heq := hB x
                  simp [retryCountOf, update_state, hmergeState, hx] at heq ⊢
                  exact heq
            | err e =>
              injection h with hpair
              injection hpair with hb hs
              subst hs
              exact handle_failure_preserves g s c e hc hF

theorem steps_preserve (g : Settings) {s s' : Orch} (htr : Steps g s s')
    (hF : FreshOk s)
    (hB : ∀ c, retryCountOf s c ≤ g.max_retry_attempts) :
    FreshOk s' ∧ (∀ c, retryCountOf s c ≤ retryCountOf s' c) ∧
    (∀ c, retryCountOf s' c ≤ g.max_retry_attempts) := by
  induction htr with
  | refl => exact ⟨hF, fun c => le_refl _, hB⟩
  | tail hab hbc ih =>
    obtain ⟨hF', hmono, hB'⟩ := ih
    obtain ⟨hF'', hmono', hBimp⟩ := step_preserves g hbc hF'
    exact ⟨hF'', fun c => le_trans (hmono c) (hmono' c), hBimp hB'⟩

/-- Claim C9: along any sequence of public operations starting from a state
where unallocated ids have no hash and all retry counters are within bound,
every call's `retry_count` is monotonically non-decreasing, and it never
exceeds `max_retry_attempts` in any state whatsoever (in particular at every
state before the call reaches terminal FAILED status). -/
theorem retry_count_monotone_bounded (g : Settings) {s s' : Orch}
    (hF : FreshOk s)
    (hB : ∀ c, retryCountOf s c ≤ g.max_retry_attempts)
    (htr : Steps g s s') :
    (∀ c, retryCountOf s c ≤ retryCountOf s' c) ∧
    (∀ c, retryCountOf s' c ≤ g.max_retry_attempts) := by
  obtain ⟨-, h1, h2⟩ := steps_preserve g htr hF hB
  exact ⟨h1, h2⟩

/-- Witness for C9 on the one-step trace that schedules call 0 from the
fresh state. -/
theorem retry_count_monotone_bounded_w :
    FreshOk init0 ∧
    (∀ c, retryCountOf init0 c ≤ settings0.max_retry_attempts) ∧
    ((∀ c, retryCountOf init0 c ≤
        retryCountOf (schedule_call init0 1 5 "" true).2 c) ∧
     (∀ c, retryCountOf (schedule_call init0 1 5 "" true).2 c ≤
        settings0.max_retry_attempts)) :=
  ⟨(fun c _ => rfl), (fun c => Nat.zero_le _),
    retry_count_monotone_bounded settings0 (fun c _ => rfl) (fun c => Nat.zero_le _)
      (Relation.ReflTransGen.single (Step.schedule 1 5 "" true init0))⟩

end SDVoice
